import Mathlib

/-!
# Verification of the resume-reviewer client

Shallow embedding of the resume-reviewer browser client
(`src/lib/comments.ts`, `src/lib/pdf.ts`, `src/lib/auth.ts`,
`src/pages/review.ts`, `src/pages/upload.ts`).

Conventions of the embedding:
* JavaScript numbers used as pixel coordinates are modelled as `Int`
  (their exact value is irrelevant to the verified properties);
  the zoom factor is modelled as `ℚ` (all reachable values are exact
  multiples of 1/4, which binary doubles represent exactly).
* ISO timestamp strings (`created_at`) are modelled as `Nat`, ordered as
  the timestamps they denote.
* The external backend (database rows, object storage, realtime feed) is
  modelled by explicit value parameters: a table is a list of rows, the
  storage bucket a list of paths, and the outcome of a fallible backend
  call an `Option String` error.
* JavaScript `Set` objects are modelled as duplicate-free lists in
  insertion order: `add` appends when absent, `delete` filters,
  `forEach` walks the list.
* Effectful service methods are modelled as pure functions that also
  return the observable effects (listener invocations, thrown errors,
  performed backend operations) explicitly.
-/

namespace ResumeReviewer

/-- The `Comment` row type from `src/types/index.ts`. -/
structure Comment where
  id : String
  pdf_id : String
  x : Int
  y : Int
  page : Nat
  text : String
  author_name : Option String
  created_at : Nat
deriving DecidableEq, Repr

/-! ## CommentsService (src/lib/comments.ts) -/

/-- `getCommentsByPDFId` issues
`select('*').eq('pdf_id', pdfId).order('created_at', { ascending: true })`:
the backend returns the rows of the `comments` table whose `pdf_id` equals
the argument, sorted ascending by `created_at`.  The table is the `db`
parameter; the PostgREST filter-and-order semantics is embedded directly. -/
def getCommentsByPDFId (db : List Comment) (pdfId : String) : List Comment :=
  (db.filter (fun c => c.pdf_id == pdfId)).mergeSort
    (fun a b => a.created_at ≤ b.created_at)

/-- The row built by `createComment`: `params.author_name || 'Anonymous'`
applies the JavaScript truthiness test, so both an omitted (`undefined`)
and an empty-string author name fall back to `'Anonymous'`. -/
structure CreateCommentParams where
  pdf_id : String
  x : Int
  y : Int
  page : Nat
  text : String
  author_name : Option String
deriving DecidableEq, Repr

/-- The object passed to `.insert(...)` by `createComment`. -/
structure CommentInsertRow where
  pdf_id : String
  x : Int
  y : Int
  page : Nat
  text : String
  author_name : String
deriving DecidableEq, Repr

/-- The insert payload constructed in `CommentsService.createComment`
(lines 24–31 of `src/lib/comments.ts`). -/
def commentInsertRow (params : CreateCommentParams) : CommentInsertRow :=
  { pdf_id := params.pdf_id
    x := params.x
    y := params.y
    page := params.page
    text := params.text
    author_name :=
      match params.author_name with
      | none => "Anonymous"
      | some s => if s = "" then "Anonymous" else s }

/-! ### Realtime subscription machinery

`CommentsService` keeps `listeners : Map<string, Set<CommentListener>>`.
Listeners are identified by `Nat` handles; the map is an association list
in key-insertion order, each value a duplicate-free list (a JS `Set`).
`subscribeToComments` also opens a realtime channel on the backend; open
channels are tracked as `(channelId, pdfId)` pairs, with a counter
supplying fresh channel ids. -/
structure CommentsSvc where
  listeners : List (String × List Nat)
  channels : List (Nat × String)
  nextChannelId : Nat
deriving DecidableEq, Repr

/-- The empty service state (fresh `CommentsService` instance). -/
def CommentsSvc.init : CommentsSvc :=
  { listeners := [], channels := [], nextChannelId := 0 }

/-- `Map.get` on the association list. -/
def lookupListeners (m : List (String × List Nat)) (k : String) :
    Option (List Nat) :=
  (m.find? (fun p => p.1 == k)).map (·.2)

/-- `Map.set` on the association list: update in place, else append. -/
def setListeners (m : List (String × List Nat)) (k : String)
    (v : List Nat) : List (String × List Nat) :=
  if m.any (fun p => p.1 == k) then
    m.map (fun p => if p.1 == k then (k, v) else p)
  else m ++ [(k, v)]

/-- `Map.delete` on the association list. -/
def deleteListeners (m : List (String × List Nat)) (k : String) :
    List (String × List Nat) :=
  m.filter (fun p => p.1 != k)

/-- The data captured by the unsubscribe closure returned from
`subscribeToComments`: the document id, the listener, and the channel
opened by that same call. -/
structure CommentsUnsub where
  pdfId : String
  listener : Nat
  channel : Nat
deriving DecidableEq, Repr

/-- `CommentsService.subscribeToComments` (lines 62–99 of
`src/lib/comments.ts`): ensure a listener set exists for `pdfId`, add the
listener to it, open a realtime channel for `pdfId` on the backend, and
return the unsubscribe closure. -/
def CommentsSvc.subscribeToComments (s : CommentsSvc) (pdfId : String)
    (l : Nat) : CommentsSvc × CommentsUnsub :=
  let ls :=
    match lookupListeners s.listeners pdfId with
    | none => []
    | some v => v
  let ls1 := if l ∈ ls then ls else ls ++ [l]
  ({ listeners := setListeners s.listeners pdfId ls1
     channels := s.channels ++ [(s.nextChannelId, pdfId)]
     nextChannelId := s.nextChannelId + 1 },
   { pdfId := pdfId, listener := l, channel := s.nextChannelId })

/-- The unsubscribe closure (lines 92–98 of `src/lib/comments.ts`):
`listeners.get(pdfId)?.delete(listener)`, and when the resulting set has
size 0, delete the map entry and `removeChannel(channel)` for the channel
this closure captured. -/
def CommentsSvc.runUnsub (s : CommentsSvc) (u : CommentsUnsub) :
    CommentsSvc :=
  match lookupListeners s.listeners u.pdfId with
  | none => s
  | some ls =>
    let ls1 := ls.filter (fun x => x ≠ u.listener)
    if ls1.length = 0 then
      { s with
        listeners := deleteListeners s.listeners u.pdfId
        channels := s.channels.filter (fun c => c.1 ≠ u.channel) }
    else { s with listeners := setListeners s.listeners u.pdfId ls1 }

/-- `CommentsService.notifyListeners` (lines 104–109): invoke every
listener registered for `pdfId` with the given list.  The result is the
invocation log: one `(listener, comments)` entry per call. -/
def CommentsSvc.notifyListeners (s : CommentsSvc) (pdfId : String)
    (comments : List Comment) : List (Nat × List Comment) :=
  match lookupListeners s.listeners pdfId with
  | none => []
  | some ls => ls.map (fun l => (l, comments))

/-- One INSERT event arriving from the realtime feed for `pdfId`, with the
`comments` table in state `db` at refetch time.  Every open channel whose
filter matches `pdfId` fires its handler once; each handler refetches the
full list via `getCommentsByPDFId` and calls `notifyListeners`. -/
def CommentsSvc.insertEvent (s : CommentsSvc) (pdfId : String)
    (db : List Comment) : List (Nat × List Comment) :=
  (s.channels.filter (fun c => c.2 == pdfId)).flatMap (fun _ =>
    s.notifyListeners pdfId (getCommentsByPDFId db pdfId))

/-! ## Review page (src/pages/review.ts) -/

/-- JavaScript `Array.prototype.findIndex`: index of the first element
satisfying the test, `-1` when none does. -/
def jsFindIndex (p : α → Bool) (l : List α) : Int :=
  match l.findIdx? p with
  | some i => (i : Int)
  | none => -1

/-- A pin element as produced by `renderPins`: the comment it marks, the
`data-number` label and the CSS position. -/
structure Pin where
  commentId : String
  number : Int
  x : Int
  y : Int
deriving DecidableEq, Repr

/-- `renderPins` (lines 197–221 of `src/pages/review.ts`): filter the
in-memory comment list to the current page, and for each remaining
comment emit a pin whose number is
`comments.findIndex(c => c.id === comment.id) + 1`. -/
def renderPins (comments : List Comment) (currentPage : Nat) : List Pin :=
  (comments.filter (fun c => c.page == currentPage)).map (fun comment =>
    { commentId := comment.id
      number := jsFindIndex (fun c => c.id == comment.id) comments + 1
      x := comment.x
      y := comment.y })

/-- A click on the zoom-in or zoom-out button. -/
inductive ZoomClick where
  | zoomIn
  | zoomOut
deriving DecidableEq, Repr

/-- `currentZoom = 1.0` (line 42 of `src/pages/review.ts`). -/
def initialZoom : ℚ := 1

/-- The zoom button click handlers (lines 261–275 of
`src/pages/review.ts`): zoom-in adds 0.25 and re-renders only when
`currentZoom < 2.0`; zoom-out subtracts 0.25 and re-renders only when
`currentZoom > 0.5`.  The second component is the zoom factor of the
`renderPage` call the handler triggers, `none` when the click is
rejected and no render happens. -/
def zoomStep (z : ℚ) : ZoomClick → ℚ × Option ℚ
  | .zoomIn => if z < 2 then (z + 1/4, some (z + 1/4)) else (z, none)
  | .zoomOut => if z > 1/2 then (z - 1/4, some (z - 1/4)) else (z, none)

/-- Run a sequence of zoom clicks, collecting the zoom factors of all
triggered renders. -/
def zoomRun (z : ℚ) : List ZoomClick → ℚ × List ℚ
  | [] => (z, [])
  | c :: cs =>
    let s := zoomStep z c
    let rest := zoomRun s.1 cs
    (rest.1, (match s.2 with | some q => [q] | none => []) ++ rest.2)

/-! ## Upload page (src/pages/upload.ts) -/

/-- The fields of a DOM `File` object that `handleFileSelect` reads
(`type` is the MIME type). -/
structure JsFile where
  name : String
  type : String
  size : Nat
deriving DecidableEq, Repr

/-- The page state touched by `handleFileSelect`: the `selectedFile`
variable, the error banner (`some msg` when shown), visibility of the
file-info box, and a counter of backend calls made so far. -/
structure UploadPageState where
  selectedFile : Option JsFile
  errorMsg : Option String
  fileInfoVisible : Bool
  networkCalls : Nat
deriving DecidableEq, Repr

/-- `handleFileSelect` (lines 80–97 of `src/pages/upload.ts`): reject a
non-PDF MIME type, then a file over `5 * 1024 * 1024` bytes, showing an
error and returning early; otherwise store the file, show its info and
clear the error.  The function body contains no backend call, so
`networkCalls` is untouched in every branch. -/
def handleFileSelect (st : UploadPageState) (file : JsFile) :
    UploadPageState :=
  if file.type ≠ "application/pdf" then
    { st with errorMsg := some "Please select a PDF file" }
  else if file.size > 5 * 1024 * 1024 then
    { st with errorMsg := some "File size must be less than 5MB" }
  else
    { st with
      selectedFile := some file
      fileInfoVisible := true
      errorMsg := none }

/-! ## PDFService (src/lib/pdf.ts) -/

/-- A backend operation performed by `PDFService.deletePDF`. -/
inductive DeleteEffect where
  | dbDelete (pdfId : String)
  | storageRemove (filePath : String)
deriving DecidableEq, Repr

/-- `PDFService.deletePDF` (lines 150–171 of `src/lib/pdf.ts`): delete
the database row first and throw on failure; only then remove the
storage object, logging and swallowing any storage error.  `dbError` and
`storageError` are the outcomes the backend would return for the two
calls.  Result: the effects performed in order, the thrown error if any,
and the console error log. -/
def deletePDF (pdfId filePath : String)
    (dbError storageError : Option String) :
    List DeleteEffect × Option String × List String :=
  match dbError with
  | some e =>
    ([DeleteEffect.dbDelete pdfId],
     some ("Failed to delete PDF from database: " ++ e), [])
  | none =>
    ([DeleteEffect.dbDelete pdfId, DeleteEffect.storageRemove filePath],
     none,
     match storageError with
     | some e => ["Failed to delete file from storage: " ++ e]
     | none => [])

/-- `PDFService.uploadPDF` (lines 67–88 of `src/lib/pdf.ts`), storage
side: upload the object at `filePath` into the bucket (modelled as the
list of stored paths), then insert the database row; when the insert
fails, `remove([filePath])` is awaited before the error is thrown.
`uploadError`/`dbError` are the outcomes of the two backend calls.
Result: the final bucket contents and the thrown error if any. -/
def uploadPDF (filePath : String) (storage : List String)
    (uploadError dbError : Option String) :
    List String × Option String :=
  match uploadError with
  | some e => (storage, some ("Upload failed: " ++ e))
  | none =>
    let storage1 := storage ++ [filePath]
    match dbError with
    | some e =>
      (storage1.filter (fun q => q ≠ filePath),
       some ("Database error: " ++ e))
    | none => (storage1, none)

/-! ## AuthService (src/lib/auth.ts) -/

/-- `AuthUser` from `src/types/index.ts`. -/
structure AuthUser where
  id : String
  email : Option String
  username : Option String
  avatar_url : Option String
deriving DecidableEq, Repr

/-- `AuthState` from `src/types/index.ts`; the opaque session object is
modelled by its token. -/
structure AuthState where
  user : Option AuthUser
  session : Option String
  loading : Bool
  error : Option String
deriving DecidableEq, Repr

/-- `Partial<AuthState>`: each field optionally present. -/
structure AuthStatePatch where
  user : Option (Option AuthUser) := none
  session : Option (Option String) := none
  loading : Option Bool := none
  error : Option (Option String) := none
deriving DecidableEq, Repr

/-- The spread `{ ...this.state, ...partial }` in `setState`. -/
def mergeState (s : AuthState) (p : AuthStatePatch) : AuthState :=
  { user := p.user.getD s.user
    session := p.session.getD s.session
    loading := p.loading.getD s.loading
    error := p.error.getD s.error }

/-- `AuthService` observable state: the listener `Set` (duplicate-free
list in insertion order, identified by `Nat` handles), the cached
`AuthState`, and the log of listener invocations performed so far. -/
structure AuthSvc where
  listeners : List Nat
  state : AuthState
  log : List (Nat × AuthState)
deriving DecidableEq, Repr

/-- `AuthService.notifyListeners` (lines 68–70 of `src/lib/auth.ts`):
call every registered listener with the current state. -/
def AuthSvc.notifyListeners (s : AuthSvc) : AuthSvc :=
  { s with log := s.log ++ s.listeners.map (fun l => (l, s.state)) }

/-- `AuthService.setState` (lines 63–66): merge the partial state and
broadcast. -/
def AuthSvc.setState (s : AuthSvc) (p : AuthStatePatch) : AuthSvc :=
  AuthSvc.notifyListeners { s with state := mergeState s.state p }

/-- `AuthService.subscribe` (lines 73–77): add the listener to the set,
then call it immediately with the current state. -/
def AuthSvc.subscribe (s : AuthSvc) (l : Nat) : AuthSvc :=
  let s1 := { s with
    listeners :=
      if l ∈ s.listeners then s.listeners else s.listeners ++ [l] }
  { s1 with log := s1.log ++ [(l, s1.state)] }

/-- The unsubscribe closure returned by `subscribe`:
`() => this.listeners.delete(listener)`. -/
def AuthSvc.unsubscribe (s : AuthSvc) (l : Nat) : AuthSvc :=
  { s with listeners := s.listeners.filter (fun x => x ≠ l) }

/-- Anything that can happen to the auth service after a point in time:
a state broadcast via `setState`, another subscription, or an
unsubscription. -/
inductive AuthEvent where
  | setSt (p : AuthStatePatch)
  | sub (l : Nat)
  | unsub (l : Nat)
deriving DecidableEq, Repr

/-- Run a sequence of auth-service events. -/
def runAuthEvents (s : AuthSvc) : List AuthEvent → AuthSvc
  | [] => s
  | e :: es =>
    runAuthEvents
      (match e with
       | .setSt p => s.setState p
       | .sub l => s.subscribe l
       | .unsub l => s.unsubscribe l) es

/-- The invocations of listener `l` recorded in a log. -/
def logFor (l : Nat) (log : List (Nat × AuthState)) :
    List (Nat × AuthState) :=
  log.filter (fun p => p.1 == l)

/-! ## Concrete scenario used for the realtime-subscription claims -/

/-- First subscription: listener 0 subscribes to document `"d"` on a
fresh service. -/
def twoListenerSub1 : CommentsSvc × CommentsUnsub :=
  CommentsSvc.init.subscribeToComments "d" 0

/-- Second subscription: listener 1 subscribes to the same document. -/
def twoListenerSub2 : CommentsSvc × CommentsUnsub :=
  twoListenerSub1.1.subscribeToComments "d" 1

/-- A one-row `comments` table for document `"d"`. -/
def oneCommentDb : List Comment :=
  [{ id := "c1", pdf_id := "d", x := 5, y := 6, page := 1, text := "hi",
     author_name := none, created_at := 10 }]

/-- C1: with two listeners subscribed to document `"d"`, the service
holds TWO open upstream channels for that document (one per
`subscribeToComments` call, not one per document), and a single insert
event therefore invokes each listener twice, not once: each channel's
handler refetches and broadcasts to both listeners. -/
theorem subscribeToComments_duplicate_notifications :
    (twoListenerSub2.1.channels.filter (fun c => c.2 == "d")).length = 2
    ∧ ((twoListenerSub2.1.insertEvent "d" oneCommentDb).filter
        (fun q => q.1 == 0)).length = 2
    ∧ ((twoListenerSub2.1.insertEvent "d" oneCommentDb).filter
        (fun q => q.1 == 1)).length = 2 := by
  decide

/-- The service state after both listeners have unsubscribed, the
second-subscribed listener first. -/
def twoListenerAfterUnsubs : CommentsSvc :=
  (twoListenerSub2.1.runUnsub twoListenerSub2.2).runUnsub
    twoListenerSub1.2

/-- C2: after the last listener for `"d"` has unsubscribed, the channel
opened by the second `subscribeToComments` call is still open (only the
closure that empties the listener set removes a channel, and it removes
the one it captured), even though a subsequent insert event produces no
listener callback. -/
theorem unsubscribe_leaves_channel_open :
    twoListenerAfterUnsubs.channels = [(1, "d")]
    ∧ twoListenerAfterUnsubs.insertEvent "d" oneCommentDb = [] := by
  decide

/-- C5: `handleFileSelect` rejects a file whose MIME type is not
`application/pdf` or whose size exceeds 5 MB: the previously selected
file is unchanged, an error message is surfaced, and no backend call is
made. -/
theorem handleFileSelect_rejects_invalid (st : UploadPageState)
    (file : JsFile)
    (h : file.type ≠ "application/pdf" ∨ file.size > 5 * 1024 * 1024) :
    (handleFileSelect st file).selectedFile = st.selectedFile
    ∧ (handleFileSelect st file).errorMsg.isSome = true
    ∧ (handleFileSelect st file).networkCalls = st.networkCalls := by
  by_cases ht : file.type = "application/pdf"
  · have hs : file.size > 5 * 1024 * 1024 := by
      rcases h with h | h
      · exact absurd ht h
      · exact h
    simp [handleFileSelect, ht, hs]
  · simp [handleFileSelect, ht]

/-- Witness for C5 at a concrete non-PDF file. -/
theorem handleFileSelect_rejects_invalid_witness :
    ((⟨"x.txt", "text/plain", 100⟩ : JsFile).type ≠ "application/pdf")
    ∧ ((handleFileSelect ⟨none, none, false, 0⟩
          ⟨"x.txt", "text/plain", 100⟩).selectedFile
        = (⟨none, none, false, 0⟩ : UploadPageState).selectedFile
      ∧ (handleFileSelect ⟨none, none, false, 0⟩
          ⟨"x.txt", "text/plain", 100⟩).errorMsg.isSome = true
      ∧ (handleFileSelect ⟨none, none, false, 0⟩
          ⟨"x.txt", "text/plain", 100⟩).networkCalls
        = (⟨none, none, false, 0⟩ : UploadPageState).networkCalls) :=
  ⟨by decide,
   handleFileSelect_rejects_invalid ⟨none, none, false, 0⟩
     ⟨"x.txt", "text/plain", 100⟩ (Or.inl (by decide))⟩

/-- C7: when the database delete fails, `deletePDF` throws and the
storage removal is never attempted; when the database delete succeeds,
no error is thrown regardless of the storage outcome (the storage
failure is only logged). -/
theorem deletePDF_error_policy (pdfId filePath : String)
    (dbError storageError : Option String) :
    (∀ e, dbError = some e →
      (deletePDF pdfId filePath dbError storageError).2.1.isSome = true
      ∧ DeleteEffect.storageRemove filePath
          ∉ (deletePDF pdfId filePath dbError storageError).1)
    ∧ (dbError = none →
      (deletePDF pdfId filePath dbError storageError).2.1 = none) := by
  constructor
  · rintro e rfl
    simp [deletePDF]
  · rintro rfl
    simp [deletePDF]

/-- Witness for C7 at concrete inputs, for both the failing and the
successful database delete. -/
theorem deletePDF_error_policy_witness :
    ((deletePDF "p" "f" (some "x") (some "y")).2.1.isSome = true
      ∧ DeleteEffect.storageRemove "f"
          ∉ (deletePDF "p" "f" (some "x") (some "y")).1)
    ∧ (deletePDF "p" "f" none (some "y")).2.1 = none :=
  ⟨(deletePDF_error_policy "p" "f" (some "x") (some "y")).1 "x" rfl,
   (deletePDF_error_policy "p" "f" none (some "y")).2 rfl⟩

/-- C9: when the storage upload succeeds but the database insert fails,
`uploadPDF` removes the just-uploaded object before throwing, so the
bucket is left exactly as it was and the database error is thrown. -/
theorem uploadPDF_cleanup_on_db_failure (filePath : String)
    (storage : List String) (e : String) (h : filePath ∉ storage) :
    uploadPDF filePath storage none (some e)
      = (storage, some ("Database error: " ++ e)) := by
  unfold uploadPDF
  simp only [List.filter_append]
  have h1 : storage.filter (fun q => q ≠ filePath) = storage := by
    apply List.filter_eq_self.mpr
    intro a ha
    simp only [ne_eq, decide_eq_true_eq]
    intro heq
    exact h (heq ▸ ha)
  have h2 : [filePath].filter (fun q => q ≠ filePath) = [] := by simp
  simp [h1, h2]
  exact fun a ha heq => h (heq ▸ ha)

/-- Witness for C9 at a concrete path and bucket. -/
theorem uploadPDF_cleanup_on_db_failure_witness :
    ("u1/1-r.pdf" ∉ (["other"] : List String))
    ∧ uploadPDF "u1/1-r.pdf" ["other"] none (some "boom")
      = (["other"], some ("Database error: " ++ "boom")) :=
  ⟨by decide,
   uploadPDF_cleanup_on_db_failure "u1/1-r.pdf" ["other"] "boom"
     (by decide)⟩

/-- C10: `createComment` substitutes `'Anonymous'` when the author name
is omitted or empty, and passes every other field of the params through
unchanged. -/
theorem createComment_defaults_anonymous (params : CreateCommentParams)
    (h : params.author_name = none ∨ params.author_name = some "") :
    (commentInsertRow params).author_name = "Anonymous"
    ∧ (commentInsertRow params).pdf_id = params.pdf_id
    ∧ (commentInsertRow params).x = params.x
    ∧ (commentInsertRow params).y = params.y
    ∧ (commentInsertRow params).page = params.page
    ∧ (commentInsertRow params).text = params.text := by
  rcases h with h | h <;> simp [commentInsertRow, h]

/-- Witness for C10 at concrete params with an empty author name. -/
theorem createComment_defaults_anonymous_witness :
    ((⟨"d", 1, 2, 3, "t", some ""⟩ : CreateCommentParams).author_name
        = none
      ∨ (⟨"d", 1, 2, 3, "t", some ""⟩ :
          CreateCommentParams).author_name = some "")
    ∧ (commentInsertRow ⟨"d", 1, 2, 3, "t", some ""⟩).author_name
        = "Anonymous" :=
  ⟨Or.inr rfl,
   (createComment_defaults_anonymous ⟨"d", 1, 2, 3, "t", some ""⟩
     (Or.inr rfl)).1⟩

/-- C6: `getCommentsByPDFId` returns exactly the comments of the given
document (every comment of that document, and nothing else), ordered
non-decreasing by creation time. -/
theorem getCommentsByPDFId_complete_and_sorted (db : List Comment)
    (pdfId : String) :
    (∀ c : Comment,
      c ∈ getCommentsByPDFId db pdfId ↔ c ∈ db ∧ c.pdf_id = pdfId)
    ∧ (getCommentsByPDFId db pdfId).Pairwise
        (fun a b => a.created_at ≤ b.created_at) := by
  constructor
  · intro c
    unfold getCommentsByPDFId
    rw [List.mem_mergeSort, List.mem_filter]
    simp
  · have h := List.sorted_mergeSort
      (fun (a b c : Comment) (h1 : decide (a.created_at ≤ b.created_at))
          (h2 : decide (b.created_at ≤ c.created_at)) => by
        simp only [decide_eq_true_eq] at *
        exact Nat.le_trans h1 h2)
      (fun (a b : Comment) => by
        simpa using Nat.le_total a.created_at b.created_at)
      (db.filter (fun c => c.pdf_id == pdfId))
    exact h.imp (fun hab => by simpa using hab)

/-- Witness for C6 on a concrete two-row table: membership in both
directions and sortedness at that table. -/
theorem getCommentsByPDFId_complete_and_sorted_witness :
    ((⟨"a", "d", 0, 0, 1, "t1", none, 5⟩ : Comment)
        ∈ getCommentsByPDFId
          [⟨"a", "d", 0, 0, 1, "t1", none, 5⟩,
           ⟨"b", "d", 0, 0, 1, "t2", none, 2⟩] "d")
    ∧ (getCommentsByPDFId
        [⟨"a", "d", 0, 0, 1, "t1", none, 5⟩,
         ⟨"b", "d", 0, 0, 1, "t2", none, 2⟩] "d").Pairwise
        (fun a b => a.created_at ≤ b.created_at) :=
  ⟨((getCommentsByPDFId_complete_and_sorted
      [⟨"a", "d", 0, 0, 1, "t1", none, 5⟩,
       ⟨"b", "d", 0, 0, 1, "t2", none, 2⟩] "d").1
      ⟨"a", "d", 0, 0, 1, "t1", none, 5⟩).mpr ⟨by decide, rfl⟩,
   (getCommentsByPDFId_complete_and_sorted
      [⟨"a", "d", 0, 0, 1, "t1", none, 5⟩,
       ⟨"b", "d", 0, 0, 1, "t2", none, 2⟩] "d").2⟩

/-- The zoom values reachable from the initial factor: exact multiples
of 1/4 between 0.5 and 2.0. -/
def zoomOK (z : ℚ) : Prop := ∃ k : ℕ, 2 ≤ k ∧ k ≤ 8 ∧ z = (k : ℚ) / 4

/-- `zoomOK` implies the configured bounds. -/
lemma zoomOK_bounds {z : ℚ} (h : zoomOK z) : 1 / 2 ≤ z ∧ z ≤ 2 := by
  obtain ⟨k, hk2, hk8, rfl⟩ := h
  have h2 : (2 : ℚ) ≤ (k : ℚ) := by exact_mod_cast hk2
  have h8 : (k : ℚ) ≤ 8 := by exact_mod_cast hk8
  constructor
  · linarith
  · linarith

/-- A single zoom click preserves `zoomOK` for the new factor and for
any render it triggers. -/
lemma zoomStep_ok {z : ℚ} (h : zoomOK z) (c : ZoomClick) :
    zoomOK (zoomStep z c).1
    ∧ ∀ r, (zoomStep z c).2 = some r → zoomOK r := by
  obtain ⟨k, hk2, hk8, rfl⟩ := h
  have h2 : (2 : ℚ) ≤ (k : ℚ) := by exact_mod_cast hk2
  have h8 : (k : ℚ) ≤ 8 := by exact_mod_cast hk8
  cases c
  case zoomIn =>
    by_cases hcond : (k : ℚ) / 4 < 2
    · have hk : k < 8 := by
        by_contra hkc
        push_neg at hkc
        have h8' : (8 : ℚ) ≤ (k : ℚ) := by exact_mod_cast hkc
        linarith
      have hval : (k : ℚ) / 4 + 1 / 4 = ((k + 1 : ℕ) : ℚ) / 4 := by
        push_cast
        ring
      simp only [zoomStep, if_pos hcond]
      refine ⟨⟨k + 1, by omega, by omega, hval⟩, ?_⟩
      intro r hr
      simp only [Option.some.injEq] at hr
      exact ⟨k + 1, by omega, by omega, by rw [← hr]; exact hval⟩
    · simp only [zoomStep, if_neg hcond]
      exact ⟨⟨k, hk2, hk8, rfl⟩, fun r hr => by simp at hr⟩
  case zoomOut =>
    by_cases hcond : (k : ℚ) / 4 > 1 / 2
    · have hk : 2 < k := by
        by_contra hkc
        push_neg at hkc
        have h2' : (k : ℚ) ≤ 2 := by exact_mod_cast hkc
        rw [gt_iff_lt] at hcond
        linarith
      have h1k : 1 ≤ k := by omega
      have hval : (k : ℚ) / 4 - 1 / 4 = ((k - 1 : ℕ) : ℚ) / 4 := by
        have hc : ((k - 1 : ℕ) : ℚ) = (k : ℚ) - 1 := by
          push_cast [h1k]
          ring
        rw [hc]
        ring
      simp only [zoomStep, if_pos hcond]
      refine ⟨⟨k - 1, by omega, by omega, hval⟩, ?_⟩
      intro r hr
      simp only [Option.some.injEq] at hr
      exact ⟨k - 1, by omega, by omega, by rw [← hr]; exact hval⟩
    · simp only [zoomStep, if_neg hcond]
      exact ⟨⟨k, hk2, hk8, rfl⟩, fun r hr => by simp at hr⟩

/-- Running any click sequence from a reachable factor keeps the final
factor and every triggered render reachable. -/
lemma zoomRun_ok (cs : List ZoomClick) :
    ∀ z : ℚ, zoomOK z →
      zoomOK (zoomRun z cs).1 ∧ ∀ r ∈ (zoomRun z cs).2, zoomOK r := by
  induction cs with
  | nil =>
    intro z hz
    exact ⟨hz, fun r hr => by simp [zoomRun] at hr⟩
  | cons c cs ih =>
    intro z hz
    have hstep := zoomStep_ok hz c
    have hrest := ih (zoomStep z c).1 hstep.1
    unfold zoomRun
    refine ⟨hrest.1, ?_⟩
    intro r hr
    simp only [List.mem_append] at hr
    rcases hr with hr | hr
    · rcases hopt : (zoomStep z c).2 with _ | q
      · simp [hopt] at hr
      · simp only [hopt, List.mem_singleton] at hr
        exact hr ▸ hstep.2 q hopt
    · exact hrest.2 r hr

/-- C4: starting from the initial zoom factor 1.0, after every sequence
of zoom clicks the factor stays within [0.5, 2.0], every triggered page
render uses a factor within those bounds, and each click either leaves
the factor unchanged (rejected, no render) or changes it by exactly
0.25 and renders at the new factor. -/
theorem zoom_clamped (clicks : List ZoomClick) :
    (1 / 2 ≤ (zoomRun initialZoom clicks).1
      ∧ (zoomRun initialZoom clicks).1 ≤ 2)
    ∧ (∀ r ∈ (zoomRun initialZoom clicks).2, 1 / 2 ≤ r ∧ r ≤ 2)
    ∧ ∀ (z : ℚ) (c : ZoomClick),
        ((zoomStep z c).2 = none → (zoomStep z c).1 = z)
        ∧ ∀ r, (zoomStep z c).2 = some r →
            r = (zoomStep z c).1
            ∧ ((zoomStep z c).1 = z + 1 / 4
               ∨ (zoomStep z c).1 = z - 1 / 4) := by
  have hinit : zoomOK initialZoom := ⟨4, by omega, by omega, by norm_num [initialZoom]⟩
  have hrun := zoomRun_ok clicks initialZoom hinit
  refine ⟨zoomOK_bounds hrun.1, fun r hr => zoomOK_bounds (hrun.2 r hr), ?_⟩
  intro z c
  cases c
  case zoomIn =>
    by_cases hcond : z < 2
    · constructor
      · intro hnone
        simp only [zoomStep, if_pos hcond] at hnone
        simp at hnone
      · intro r hr
        simp only [zoomStep, if_pos hcond, Option.some.injEq] at hr ⊢
        exact ⟨hr.symm, by simp⟩
    · constructor
      · intro hnone
        simp only [zoomStep, if_neg hcond]
      · intro r hr
        simp only [zoomStep, if_neg hcond] at hr
        simp at hr
  case zoomOut =>
    by_cases hcond : z > 1 / 2
    · constructor
      · intro hnone
        simp only [zoomStep, if_pos hcond] at hnone
        simp at hnone
      · intro r hr
        simp only [zoomStep, if_pos hcond, Option.some.injEq] at hr ⊢
        exact ⟨hr.symm, by simp⟩
    · constructor
      · intro hnone
        simp only [zoomStep, if_neg hcond]
      · intro r hr
        simp only [zoomStep, if_neg hcond] at hr
        simp at hr

/-- Witness for C4 on a concrete click sequence that hits the upper
clamp: five zoom-in clicks from 1.0. -/
theorem zoom_clamped_witness :
    (1 / 2 ≤ (zoomRun initialZoom
        [ZoomClick.zoomIn, ZoomClick.zoomIn, ZoomClick.zoomIn,
         ZoomClick.zoomIn, ZoomClick.zoomIn]).1
      ∧ (zoomRun initialZoom
        [ZoomClick.zoomIn, ZoomClick.zoomIn, ZoomClick.zoomIn,
         ZoomClick.zoomIn, ZoomClick.zoomIn]).1 ≤ 2)
    ∧ (1 / 2 ≤ ((5 : ℚ) / 4) ∧ ((5 : ℚ) / 4) ≤ 2) :=
  ⟨(zoom_clamped
      [ZoomClick.zoomIn, ZoomClick.zoomIn, ZoomClick.zoomIn,
       ZoomClick.zoomIn, ZoomClick.zoomIn]).1,
   (zoom_clamped
      [ZoomClick.zoomIn, ZoomClick.zoomIn, ZoomClick.zoomIn,
       ZoomClick.zoomIn, ZoomClick.zoomIn]).2.1 (5 / 4) (by
        norm_num [zoomRun, zoomStep, initialZoom])⟩

/-- When comment ids are pairwise distinct, the first index whose id
matches a member's id is that member's own index. -/
lemma findIdx?_id_eq_indexOf (c : Comment) :
    ∀ comments : List Comment, c ∈ comments →
      (comments.map Comment.id).Nodup →
      comments.findIdx? (fun c2 => c2.id == c.id)
        = some (comments.indexOf c) := by
  intro comments
  induction comments with
  | nil => intro h; exact absurd h (List.not_mem_nil c)
  | cons a t ih =>
    intro hc hnd
    rw [List.map_cons, List.nodup_cons] at hnd
    by_cases hac : a = c
    · subst hac
      rw [List.findIdx?_cons]
      simp [List.indexOf_cons_self]
    · have hct : c ∈ t := by
        rcases List.mem_cons.mp hc with h | h
        · exact absurd h.symm hac
        · exact h
      have hid : a.id ≠ c.id := by
        intro he
        exact hnd.1 (he ▸ List.mem_map_of_mem Comment.id hct)
      have hbid : (a.id == c.id) = false := by
        simp [hid]
      rw [List.findIdx?_cons, hbid]
      simp only [Bool.false_eq_true, if_false]
      rw [List.findIdx?_succ, ih hct hnd.2]
      rw [List.indexOf_cons_ne t hac]
      rfl

/-- C3: under distinct comment ids, `renderPins` renders exactly the
pins of the comments on the current page (same ids, same order as the
page filter of the full list), and each rendered pin's number is the
1-based position of its comment in the full chronological list. -/
theorem renderPins_page_filter_and_chronological_numbering
    (comments : List Comment) (p : Nat)
    (hid : (comments.map Comment.id).Nodup) :
    ((renderPins comments p).map Pin.commentId
      = (comments.filter (fun c => c.page == p)).map Comment.id)
    ∧ ∀ pin ∈ renderPins comments p, ∃ c ∈ comments,
        c.page = p ∧ pin.commentId = c.id ∧ pin.x = c.x ∧ pin.y = c.y
        ∧ pin.number = (comments.indexOf c : Int) + 1 := by
  constructor
  · unfold renderPins
    rw [List.map_map]
    rfl
  · intro pin hpin
    unfold renderPins at hpin
    rcases List.mem_map.mp hpin with ⟨c, hcf, rfl⟩
    have hcm := List.mem_filter.mp hcf
    have hpage : c.page = p := by simpa using hcm.2
    refine ⟨c, hcm.1, hpage, rfl, rfl, rfl, ?_⟩
    show jsFindIndex (fun c2 => c2.id == c.id) comments + 1 = _
    unfold jsFindIndex
    rw [findIdx?_id_eq_indexOf c comments hcm.1 hid]

/-- Comment on page 1 of document `"d"`, created first. -/
def cA : Comment := ⟨"a", "d", 10, 11, 1, "t1", none, 1⟩

/-- Comment on page 1 of document `"d"`, created second. -/
def cB : Comment := ⟨"b", "d", 20, 21, 1, "t2", none, 2⟩

/-- Comment on page 2 of document `"d"`, created third. -/
def cC : Comment := ⟨"c", "d", 30, 31, 2, "t3", none, 3⟩

/-- Witness for C3 at the spec's example (pages 1, 1, 2): page 2 shows
exactly the third comment's pin. -/
theorem renderPins_page_filter_witness :
    (([cA, cB, cC].map Comment.id).Nodup)
    ∧ (renderPins [cA, cB, cC] 2).map Pin.commentId = ["c"] :=
  ⟨by decide,
   ((renderPins_page_filter_and_chronological_numbering
      [cA, cB, cC] 2 (by decide)).1).trans (by decide)⟩

/-- `logFor` distributes over concatenation. -/
lemma logFor_append (l : Nat) (a b : List (Nat × AuthState)) :
    logFor l (a ++ b) = logFor l a ++ logFor l b := by
  unfold logFor
  exact List.filter_append a b

/-- A broadcast to listeners not containing `l` records nothing for
`l`. -/
lemma logFor_broadcast_not_mem (l : Nat) (ls : List Nat)
    (st : AuthState) (h : l ∉ ls) :
    logFor l (ls.map (fun x => (x, st))) = [] := by
  unfold logFor
  rw [List.filter_eq_nil_iff]
  intro q hq
  rcases List.mem_map.mp hq with ⟨x, hx, rfl⟩
  simp only [beq_iff_eq]
  intro he
  exact h (he ▸ hx)

/-- Once `l` is not registered, no event sequence that never
re-subscribes `l` can register it again or add invocations of it. -/
lemma runAuthEvents_silent_for (l : Nat) (es : List AuthEvent) :
    ∀ s : AuthSvc, l ∉ s.listeners →
      (∀ e ∈ es, e ≠ AuthEvent.sub l) →
      l ∉ (runAuthEvents s es).listeners
      ∧ logFor l (runAuthEvents s es).log = logFor l s.log := by
  induction es with
  | nil =>
    intro s hmem _
    exact ⟨hmem, rfl⟩
  | cons e es ih =>
    intro s hmem hes
    have hes' : ∀ e ∈ es, e ≠ AuthEvent.sub l :=
      fun e he => hes e (List.mem_cons_of_mem _ he)
    cases e
    case setSt q =>
      have hstep := ih (s.setState q)
        (by simpa [AuthSvc.setState, AuthSvc.notifyListeners] using hmem)
        hes'
      refine ⟨hstep.1, ?_⟩
      rw [show runAuthEvents s (AuthEvent.setSt q :: es)
            = runAuthEvents (s.setState q) es from rfl]
      rw [hstep.2]
      show logFor l (AuthSvc.notifyListeners _).log = _
      unfold AuthSvc.notifyListeners
      rw [logFor_append, logFor_broadcast_not_mem l _ _ hmem]
      simp
    case sub l2 =>
      have hl2 : l2 ≠ l := by
        intro he
        exact hes (AuthEvent.sub l2) (List.mem_cons_self _ _)
          (by rw [he])
      have hmem2 : l ∉ (s.subscribe l2).listeners := by
        unfold AuthSvc.subscribe
        by_cases hc : l2 ∈ s.listeners
        · simpa [hc] using hmem
        · simp only [hc, ite_false, List.mem_append,
            List.mem_singleton]
          rintro (h | h)
          · exact hmem h
          · exact hl2 h.symm
      have hstep := ih (s.subscribe l2) hmem2 hes'
      refine ⟨hstep.1, ?_⟩
      rw [show runAuthEvents s (AuthEvent.sub l2 :: es)
            = runAuthEvents (s.subscribe l2) es from rfl]
      rw [hstep.2]
      show logFor l ((s.subscribe l2).log) = _
      unfold AuthSvc.subscribe
      rw [logFor_append]
      have hone : logFor l [(l2, s.state)] = [] := by
        unfold logFor
        simp [hl2]
      rw [hone]
      simp
    case unsub l2 =>
      have hmem2 : l ∉ (s.unsubscribe l2).listeners := by
        unfold AuthSvc.unsubscribe
        intro hcontra
        exact hmem (List.mem_of_mem_filter hcontra)
      have hstep := ih (s.unsubscribe l2) hmem2 hes'
      exact ⟨hstep.1, hstep.2⟩

/-- C8: `subscribe` invokes the listener synchronously exactly once
with the current state (its invocation log grows by exactly that one
entry), and after the returned unsubscribe closure runs, no sequence of
later broadcasts, subscriptions of other listeners or unsubscriptions
(anything except re-subscribing `l`) ever invokes `l` again. -/
theorem subscribe_immediate_once_and_silent_after_unsub
    (s : AuthSvc) (l : Nat) (es : List AuthEvent)
    (hes : ∀ e ∈ es, e ≠ AuthEvent.sub l) :
    ((s.subscribe l).log = s.log ++ [(l, s.state)])
    ∧ logFor l
        (runAuthEvents ((s.subscribe l).unsubscribe l) es).log
      = logFor l ((s.subscribe l).unsubscribe l).log := by
  constructor
  · rfl
  · have hmem : l ∉ ((s.subscribe l).unsubscribe l).listeners := by
      unfold AuthSvc.unsubscribe
      intro hcontra
      have := List.of_mem_filter hcontra
      simp at this
    exact (runAuthEvents_silent_for l es _ hmem hes).2

/-- Witness for C8 at a concrete service, listener and event list. -/
theorem subscribe_immediate_witness :
    (((⟨[], ⟨none, none, true, none⟩, []⟩ : AuthSvc).subscribe 3).log
      = ([] : List (Nat × AuthState))
        ++ [(3, (⟨none, none, true, none⟩ : AuthState))])
    ∧ logFor 3
        (runAuthEvents
          (((⟨[], ⟨none, none, true, none⟩, []⟩ : AuthSvc).subscribe
              3).unsubscribe 3)
          [AuthEvent.setSt ⟨none, none, some false, none⟩]).log
      = logFor 3
          (((⟨[], ⟨none, none, true, none⟩, []⟩ : AuthSvc).subscribe
              3).unsubscribe 3).log :=
  subscribe_immediate_once_and_silent_after_unsub
    ⟨[], ⟨none, none, true, none⟩, []⟩ 3
    [AuthEvent.setSt ⟨none, none, some false, none⟩] (by decide)

end ResumeReviewer
